import Mathlib

/-!
Verification development for the MAGI MCP code-review server
(`src/server.py`).  The server's `code_review` tool drives a receive
loop over a websocket: it demultiplexes inbound `agent_response`
messages by request id and agent id, accumulates per-agent content,
classifies each completed agent's decision, and reduces the three
decisions by majority vote.  The definitions below are a shallow
embedding of that loop and of the credential generator; the channel is
modelled as a list of events (a decoded message, a clean close, or a
receive error), and `hashlib.sha256` is embedded as an executable
FIPS 180-4 SHA-256 over byte lists.
-/

/-- `APP_ID` constant from `server.py`. -/
def APP_ID : String := "b75fce6f-e8af-4207-9c32-f8166afb4520"

/-- `APP_SECRET` constant from `server.py`. -/
def APP_SECRET : String := "magi-gateway-development-secret"

/-- Agent id of melchior (`AGENT_IDS` in `server.py`). -/
def MELCHIOR_ID : String := "d37c1cc8-bcc4-4b73-9f49-a93a30971f2c"

/-- Agent id of balthasar (`AGENT_IDS` in `server.py`). -/
def BALTHASAR_ID : String := "6634d0ec-d700-4a92-9066-4960a0f11927"

/-- Agent id of casper (`AGENT_IDS` in `server.py`). -/
def CASPER_ID : String := "89cbe912-25d0-47b0-97da-b25622bfac0d"

/-- The `AGENT_IDS` list of `(name, agent_id)` pairs from `server.py`. -/
def AGENT_IDS : List (String × String) :=
  [("melchior", MELCHIOR_ID), ("balthasar", BALTHASAR_ID), ("casper", CASPER_ID)]

/-- Python's `needle in haystack` substring test on strings. -/
def containsSub (pat s : String) : Bool := decide (pat.data <:+: s.data)

/-- One agent's mutable state: the dict
`{"messages": [], "decision": None, "content": ""}` of `server.py`.
Messages are recorded by their content fragment (the request id and
timestamp fields attached in the source carry no information used
anywhere). -/
structure AgentState where
  messages : List String
  decision : Option String
  content : String
deriving DecidableEq, Repr

/-- The initial per-agent dict of `code_review`. -/
def initialAgentState : AgentState := { messages := [], decision := none, content := "" }

/-- The `magi_state` dict: exactly the three fixed keys
`melchior`, `balthasar`, `casper`. -/
structure MagiState where
  melchior : AgentState
  balthasar : AgentState
  casper : AgentState
deriving DecidableEq, Repr

/-- The initial `magi_state` of `code_review`. -/
def initialMagiState : MagiState :=
  { melchior := initialAgentState, balthasar := initialAgentState, casper := initialAgentState }

/-- Python dict lookup `magi_state[agent_name]`: `none` models a
`KeyError` for a key other than the three fixed ones. -/
def MagiState.lookup (ms : MagiState) (name : String) : Option AgentState :=
  if name = "melchior" then some ms.melchior
  else if name = "balthasar" then some ms.balthasar
  else if name = "casper" then some ms.casper
  else none

/-- In-place mutation of `magi_state[agent_name]` (a no-op on an
unknown key, which is unreachable because lookup raised first). -/
def MagiState.update (ms : MagiState) (name : String) (ast : AgentState) : MagiState :=
  if name = "melchior" then { ms with melchior := ast }
  else if name = "balthasar" then { ms with balthasar := ast }
  else if name = "casper" then { ms with casper := ast }
  else ms

/-- `agent_name = next((name for name, aid in AGENT_IDS if aid == agent_id), "unknown")`.
The inbound `agent_id` field may be absent (`none`). -/
def agentNameOf (agent_id : Option String) : String :=
  match AGENT_IDS.find? (fun p => agent_id == some p.2) with
  | some p => p.1
  | none => "unknown"

/-- A decoded inbound JSON message, with the fields `code_review` reads.
Fields read with `response.get(...)` (no default) are `Option`s;
`content` is read with default `""`. -/
structure InMessage where
  request_id : Option String
  type : Option String
  agent_id : Option String
  content : String
  status : Option String
deriving DecidableEq, Repr

/-- One outcome of `await websocket.recv()` plus JSON decoding:
a decoded message, a clean close (`ConnectionClosed`), or any other
receive/decode exception. -/
inductive ChanEvent where
  | msg (m : InMessage)
  | endOfStream
  | recvError
deriving DecidableEq, Repr

/-- The loop-carried locals of `code_review`: `magi_state`,
`completed_agents`, `final_result`, `passed`. -/
structure LoopState where
  magi : MagiState
  completed : List String
  final_result : String
  passed : Bool
deriving DecidableEq, Repr

/-- Initial values: empty completed set, `final_result = ""`, `passed = False`. -/
def initialLoopState : LoopState :=
  { magi := initialMagiState, completed := [], final_result := "", passed := false }

/-- `completed_agents.add(agent_name)`: set insertion (only membership
and cardinality of this set are ever consumed). -/
def insertCompleted (l : List String) (name : String) : List String :=
  if name ∈ l then l else l ++ [name]

/-- The decision assigned on a terminal message:
`MAGIDecision.POSITIVE if "POSITIVE" in content else MAGIDecision.NEGATIVE`. -/
def decisionOfContent (content : String) : String :=
  if containsSub "POSITIVE" content then "POSITIVE" else "NEGATIVE"

/-- The three agent states in the dict's (insertion) order. -/
def MagiState.agentStates (ms : MagiState) : List AgentState :=
  [ms.melchior, ms.balthasar, ms.casper]

/-- `positive_count = sum(1 for state in magi_state.values() if state["decision"] == POSITIVE)`. -/
def positive_count (ms : MagiState) : Nat :=
  (ms.agentStates.filter (fun a => a.decision == some "POSITIVE")).length

/-- The decision reducer run when all agents have completed:
`passed = positive_count >= 2`;
`final_result = POSITIVE if passed else NEGATIVE`.
Returns `(final_result, passed)`. -/
def reduce (ms : MagiState) : String × Bool :=
  let passed : Bool := decide (2 ≤ positive_count ms)
  (if passed then "POSITIVE" else "NEGATIVE", passed)

/-- One iteration of the receive loop's body for a decoded message.
`none` models an exception escaping the body (the `KeyError` from
`magi_state[agent_name]` on an unrecognized agent), caught by the
generic handler, which breaks the loop.  `some (s, b)` is normal
processing with updated state `s`; `b = true` means the body executed
`break` (all three agents completed). -/
def processMsg (request_id : String) (s : LoopState) (m : InMessage) :
    Option (LoopState × Bool) :=
  if m.request_id ≠ some request_id then
    some (s, false)
  else if m.type ≠ some "agent_response" then
    some (s, false)
  else
    let agent_name := agentNameOf m.agent_id
    match s.magi.lookup agent_name with
    | none => none
    | some ast =>
      let ast := { ast with
        content := ast.content ++ m.content,
        messages := ast.messages ++ [m.content] }
      if m.status = some "completed" then
        let completed := insertCompleted s.completed agent_name
        let ast := { ast with decision := some (decisionOfContent m.content) }
        let magi := s.magi.update agent_name ast
        if 3 ≤ completed.length then
          let r := reduce magi
          some ({ magi := magi, completed := completed,
                  final_result := r.1, passed := r.2 }, true)
        else
          some ({ s with magi := magi, completed := completed }, false)
      else
        some ({ s with magi := s.magi.update agent_name ast }, false)

/-- The `while True` receive loop over a finite trace of channel
events.  The second component records whether the loop terminated
(`break` on completion, on `ConnectionClosed`, or on a caught
exception); if the trace is exhausted without a break the loop would
still be blocked in `recv` (`false`). -/
def runLoop (request_id : String) : LoopState → List ChanEvent → LoopState × Bool
  | s, [] => (s, false)
  | s, ChanEvent.endOfStream :: _ => (s, true)
  | s, ChanEvent.recvError :: _ => (s, true)
  | s, ChanEvent.msg m :: rest =>
    match processMsg request_id s m with
    | none => (s, true)
    | some (s', true) => (s', true)
    | some (s', false) => runLoop request_id s' rest

/-- The dict returned by `code_review`. -/
structure ReviewOutcome where
  reviews : List String
  result : String
  passed : Bool
  magi_state : MagiState
  code : String
deriving DecidableEq, Repr

/-- Assembly of the returned dict after the loop exits:
one `"Reviewer {name}: {content}"` line per agent in dict order, then
`result`, `passed`, `magi_state`, `code`. -/
def buildOutcome (code : String) (s : LoopState) : ReviewOutcome :=
  { reviews := ["Reviewer melchior: " ++ s.magi.melchior.content,
                "Reviewer balthasar: " ++ s.magi.balthasar.content,
                "Reviewer casper: " ++ s.magi.casper.content],
    result := s.final_result,
    passed := s.passed,
    magi_state := s.magi,
    code := code }

/-- The observable behaviour of the `code_review` tool on a given
channel trace: `some outcome` when the receive loop exits and the
result dict is assembled, `none` when the trace ends with the loop
still blocked in `recv`. -/
def code_review (request_id code : String) (events : List ChanEvent) :
    Option ReviewOutcome :=
  let r := runLoop request_id initialLoopState events
  if r.2 then some (buildOutcome code r.1) else none

/-- Helper: a well-formed `agent_response` message. -/
def mkAgentMsg (request_id agent_id content status : String) : InMessage :=
  { request_id := some request_id, type := some "agent_response",
    agent_id := some agent_id, content := content, status := some status }

/-- A trace in which all three agents complete with a positive fragment. -/
def eventsAllPositive (request_id : String) : List ChanEvent :=
  [ChanEvent.msg (mkAgentMsg request_id MELCHIOR_ID "POSITIVE ok" "completed"),
   ChanEvent.msg (mkAgentMsg request_id BALTHASAR_ID "POSITIVE ok" "completed"),
   ChanEvent.msg (mkAgentMsg request_id CASPER_ID "POSITIVE ok" "completed")]

/-- A state in which exactly melchior and balthasar voted positive. -/
def twoPositiveState : MagiState :=
  { melchior := { messages := [], decision := some "POSITIVE", content := "" },
    balthasar := { messages := [], decision := some "POSITIVE", content := "" },
    casper := { messages := [], decision := some "NEGATIVE", content := "" } }

/-- The data-model invariant of the spec: an agent's decision is set
exactly when that agent is in the completed set. -/
def decisionMatchesCompleted (s : LoopState) : Prop :=
  s.magi.melchior.decision.isSome = decide ("melchior" ∈ s.completed) ∧
  s.magi.balthasar.decision.isSome = decide ("balthasar" ∈ s.completed) ∧
  s.magi.casper.decision.isSome = decide ("casper" ∈ s.completed)

/-- Concatenation of a list of strings in order (left fold, as the
repeated `+=` in the source performs). -/
def joinAll (l : List String) : String := l.foldl (fun a b => a ++ b) ""

/-- The trace of streaming fragments for one agent. -/
def streamEvents (request_id agent_id : String) (frags : List String) : List ChanEvent :=
  frags.map (fun c => ChanEvent.msg (mkAgentMsg request_id agent_id c "streaming"))

/-- 2^32, the word modulus of SHA-256. -/
def UINT32_MOD : Nat := 4294967296

/-- Rotate a 32-bit word right by `n` positions. -/
def rotr32 (n x : Nat) : Nat := ((x >>> n) ||| (x <<< (32 - n))) % UINT32_MOD

/-- SHA-256 `Ch(x, y, z)`. -/
def sha_ch (x y z : Nat) : Nat := (x &&& y) ^^^ ((x ^^^ 4294967295) &&& z)

/-- SHA-256 `Maj(x, y, z)`. -/
def sha_maj (x y z : Nat) : Nat := (x &&& y) ^^^ (x &&& z) ^^^ (y &&& z)

/-- SHA-256 `Σ0`. -/
def bigSigma0 (x : Nat) : Nat := rotr32 2 x ^^^ rotr32 13 x ^^^ rotr32 22 x

/-- SHA-256 `Σ1`. -/
def bigSigma1 (x : Nat) : Nat := rotr32 6 x ^^^ rotr32 11 x ^^^ rotr32 25 x

/-- SHA-256 `σ0`. -/
def smallSigma0 (x : Nat) : Nat := rotr32 7 x ^^^ rotr32 18 x ^^^ (x >>> 3)

/-- SHA-256 `σ1`. -/
def smallSigma1 (x : Nat) : Nat := rotr32 17 x ^^^ rotr32 19 x ^^^ (x >>> 10)

/-- The 64 SHA-256 round constants. -/
def sha256K : List Nat :=
  [1116352408, 1899447441, 3049323471, 3921009573, 961987163, 1508970993,
   2453635748, 2870763221, 3624381080, 310598401, 607225278, 1426881987,
   1925078388, 2162078206, 2614888103, 3248222580, 3835390401, 4022224774,
   264347078, 604807628, 770255983, 1249150122, 1555081692, 1996064986,
   2554220882, 2821834349, 2952996808, 3210313671, 3336571891, 3584528711,
   113926993, 338241895, 666307205, 773529912, 1294757372, 1396182291,
   1695183700, 1986661051, 2177026350, 2456956037, 2730485921, 2820302411,
   3259730800, 3345764771, 3516065817, 3600352804, 4094571909, 275423344,
   430227734, 506948616, 659060556, 883997877, 958139571, 1322822218,
   1537002063, 1747873779, 1955562222, 2024104815, 2227730452, 2361852424,
   2428436474, 2756734187, 3204031479, 3329325298]

/-- The SHA-256 initial hash value. -/
def sha256H0 : List Nat :=
  [1779033703, 3144134277, 1013904242, 2773480762,
   1359893119, 2600822924, 528734635, 1541459225]

/-- `k` bytes of `n`, big-endian. -/
def toBytesBE : Nat → Nat → List Nat
  | 0, _ => []
  | k + 1, n => toBytesBE k (n / 256) ++ [n % 256]

/-- FIPS 180-4 padding: append `0x80`, zero bytes to 56 mod 64, then
the bit length as 8 big-endian bytes. -/
def sha256Pad (msg : List Nat) : List Nat :=
  msg ++ [0x80] ++ List.replicate ((119 - msg.length % 64) % 64) 0 ++
    toBytesBE 8 (8 * msg.length)

/-- Group bytes into big-endian 32-bit words. -/
def bytesToWords : List Nat → List Nat
  | b0 :: b1 :: b2 :: b3 :: rest =>
    (((b0 * 256 + b1) * 256 + b2) * 256 + b3) :: bytesToWords rest
  | _ => []

/-- Append the next word of the message schedule. -/
def scheduleStep (w : List Nat) : List Nat :=
  let n := w.length
  w ++ [(smallSigma1 (w.getD (n - 2) 0) + w.getD (n - 7) 0 +
         smallSigma0 (w.getD (n - 15) 0) + w.getD (n - 16) 0) % UINT32_MOD]

/-- Iterate the schedule extension. -/
def extendSchedule : Nat → List Nat → List Nat
  | 0, w => w
  | k + 1, w => extendSchedule k (scheduleStep w)

/-- One SHA-256 compression round on the 8-word working state. -/
def compressRound (k w : Nat) : List Nat → List Nat
  | [a, b, c, d, e, f, g, h] =>
    let t1 := (h + bigSigma1 e + sha_ch e f g + k + w) % UINT32_MOD
    let t2 := (bigSigma0 a + sha_maj a b c) % UINT32_MOD
    [(t1 + t2) % UINT32_MOD, a, b, c, (d + t1) % UINT32_MOD, e, f, g]
  | st => st

/-- Fold the 64 rounds over the round constants and the schedule. -/
def compressRounds : List Nat → List Nat → List Nat → List Nat
  | [], _, st => st
  | _, [], st => st
  | k :: ks, w :: ws, st => compressRounds ks ws (compressRound k w st)

/-- Compress one 64-byte block into the running hash. -/
def sha256Compress (h : List Nat) (block : List Nat) : List Nat :=
  let w := extendSchedule 48 (bytesToWords block)
  let st := compressRounds sha256K w h
  (h.zip st).map (fun p => (p.1 + p.2) % UINT32_MOD)

/-- Process the padded message block by block. -/
def sha256Blocks : Nat → List Nat → List Nat → List Nat
  | 0, h, _ => h
  | k + 1, h, bytes => sha256Blocks k (sha256Compress h (bytes.take 64)) (bytes.drop 64)

/-- SHA-256 of a byte list, as eight 32-bit words. -/
def sha256Words (msg : List Nat) : List Nat :=
  let padded := sha256Pad msg
  sha256Blocks (padded.length / 64) sha256H0 padded

/-- UTF-8 encoding of one character (Python's `str.encode()`). -/
def utf8EncodeChar (c : Char) : List Nat :=
  let n := c.toNat
  if n < 0x80 then [n]
  else if n < 0x800 then
    [0xC0 ||| (n >>> 6), 0x80 ||| (n &&& 0x3F)]
  else if n < 0x10000 then
    [0xE0 ||| (n >>> 12), 0x80 ||| ((n >>> 6) &&& 0x3F), 0x80 ||| (n &&& 0x3F)]
  else
    [0xF0 ||| (n >>> 18), 0x80 ||| ((n >>> 12) &&& 0x3F),
     0x80 ||| ((n >>> 6) &&& 0x3F), 0x80 ||| (n &&& 0x3F)]

/-- UTF-8 bytes of a string. -/
def strBytes (s : String) : List Nat := (s.data.map utf8EncodeChar).flatten

/-- Lowercase hex digit. -/
def hexDigit (n : Nat) : Char :=
  if n < 10 then Char.ofNat (48 + n) else Char.ofNat (87 + n)

/-- Eight lowercase hex digits of one 32-bit word. -/
def wordToHex (w : Nat) : List Char :=
  [hexDigit ((w >>> 28) &&& 15), hexDigit ((w >>> 24) &&& 15),
   hexDigit ((w >>> 20) &&& 15), hexDigit ((w >>> 16) &&& 15),
   hexDigit ((w >>> 12) &&& 15), hexDigit ((w >>> 8) &&& 15),
   hexDigit ((w >>> 4) &&& 15), hexDigit (w &&& 15)]

/-- `hashlib.sha256(s.encode()).hexdigest()`. -/
def sha256Hex (s : String) : String :=
  String.mk ((sha256Words (strBytes s)).map wordToHex).flatten

/-- The token computation of `_generate_auth_token`, generalized over
the application credentials (the source reads them from the module
constants) and over the current wall-clock time in whole seconds
(the source calls `time.time()`):
`current_minute = int(time.time() // 60)`;
`raw_str = f"{APP_ID}{APP_SECRET}{current_minute}"`;
`sha256(raw_str).hexdigest()[:10]`. -/
def generate_token (appId appSecret : String) (now : Nat) : String :=
  let current_minute := now / 60
  let raw_str := appId ++ appSecret ++ toString current_minute
  (sha256Hex raw_str).take 10

/-- `_generate_auth_token` itself, at time `now`. -/
def _generate_auth_token (now : Nat) : String := generate_token APP_ID APP_SECRET now

/-! ### Theorems -/

theorem processMsg_mismatch (request_id : String) (s : LoopState) (m : InMessage)
    (h : m.request_id ≠ some request_id) :
    processMsg request_id s m = some (s, false) := by
  simp [processMsg, h]

theorem processMsg_continue_frame (request_id : String) (s : LoopState) (m : InMessage)
    (s' : LoopState) (h : processMsg request_id s m = some (s', false)) :
    s'.passed = s.passed ∧ s'.final_result = s.final_result ∧
      (s'.completed = s.completed ∨ s'.completed.length < 3) := by
  simp only [processMsg] at h
  split at h
  · have hs : s = s' := by simpa using h
    subst hs
    exact ⟨rfl, rfl, Or.inl rfl⟩
  · split at h
    · have hs : s = s' := by simpa using h
      subst hs
      exact ⟨rfl, rfl, Or.inl rfl⟩
    · split at h
      · exact absurd h (by simp)
      · split at h
        · split at h
          · exact absurd h (by simp)
          · rename_i hlen
            simp only [Option.some.injEq, Prod.mk.injEq, and_true] at h
            subst h
            refine ⟨rfl, rfl, Or.inr ?_⟩
            show (insertCompleted s.completed (agentNameOf m.agent_id)).length < 3
            omega
        · simp only [Option.some.injEq, Prod.mk.injEq, and_true] at h
          subst h
          exact ⟨rfl, rfl, Or.inl rfl⟩

theorem runLoop_continue_frame (request_id : String) (msgs : List ChanEvent) :
    ∀ s : LoopState, (runLoop request_id s msgs).2 = false →
      (runLoop request_id s msgs).1.passed = s.passed ∧
      (runLoop request_id s msgs).1.final_result = s.final_result ∧
      ((runLoop request_id s msgs).1.completed.length < 3 ∨
        (runLoop request_id s msgs).1.completed.length ≤ s.completed.length) := by
  induction msgs with
  | nil => intro s _; exact ⟨rfl, rfl, Or.inr le_rfl⟩
  | cons e rest ih =>
    intro s hrun
    cases e with
    | endOfStream => simp [runLoop] at hrun
    | recvError => simp [runLoop] at hrun
    | msg m =>
      simp only [runLoop] at hrun ⊢
      cases hp : processMsg request_id s m with
      | none => rw [hp] at hrun; simp at hrun
      | some r =>
        rw [hp] at hrun
        obtain ⟨s', b⟩ := r
        cases b with
        | true => simp at hrun
        | false =>
          simp only at hrun ⊢
          obtain ⟨h1, h2, h3⟩ := processMsg_continue_frame request_id s m s' hp
          obtain ⟨g1, g2, g3⟩ := ih s' hrun
          refine ⟨g1.trans h1, g2.trans h2, ?_⟩
          rcases h3 with h3 | h3
          · rcases g3 with g3 | g3
            · exact Or.inl g3
            · exact Or.inr (h3 ▸ g3)
          · rcases g3 with g3 | g3
            · exact Or.inl g3
            · exact Or.inl (lt_of_le_of_lt g3 h3)

theorem runLoop_append_of_continue (request_id : String) (extra : List ChanEvent)
    (msgs : List ChanEvent) :
    ∀ s : LoopState, (runLoop request_id s msgs).2 = false →
      runLoop request_id s (msgs ++ extra) =
        runLoop request_id (runLoop request_id s msgs).1 extra := by
  induction msgs with
  | nil => intro s _; rfl
  | cons e rest ih =>
    intro s hrun
    cases e with
    | endOfStream => simp [runLoop] at hrun
    | recvError => simp [runLoop] at hrun
    | msg m =>
      simp only [runLoop, List.cons_append] at hrun ⊢
      cases hp : processMsg request_id s m with
      | none => rw [hp] at hrun; simp at hrun
      | some r =>
        rw [hp] at hrun
        obtain ⟨s', b⟩ := r
        cases b with
        | true => simp at hrun
        | false =>
          simp only at hrun ⊢
          exact ih s' hrun

theorem runLoop_append_of_break (request_id : String) (extra : List ChanEvent)
    (msgs : List ChanEvent) :
    ∀ s : LoopState, (runLoop request_id s msgs).2 = true →
      runLoop request_id s (msgs ++ extra) = runLoop request_id s msgs := by
  induction msgs with
  | nil => intro s h; simp [runLoop] at h
  | cons e rest ih =>
    intro s hrun
    cases e with
    | endOfStream => rfl
    | recvError => rfl
    | msg m =>
      simp only [runLoop, List.cons_append] at hrun ⊢
      cases hp : processMsg request_id s m with
      | none => rfl
      | some r =>
        rw [hp] at hrun
        obtain ⟨s', b⟩ := r
        cases b with
        | true => rfl
        | false =>
          simp only at hrun ⊢
          exact ih s' hrun

/-- C5: a message whose `request_id` differs from the in-flight request's
identifier is silently discarded: processing it leaves the whole loop
state (every agent's content, messages and decision, the completed set,
`final_result`, `passed`) unchanged and the loop continues, so the
eventual result of the loop is the same as if the message had never
arrived. -/
theorem C5_stale_message_frame (request_id : String) (s : LoopState) (m : InMessage)
    (rest : List ChanEvent) (h : m.request_id ≠ some request_id) :
    processMsg request_id s m = some (s, false) ∧
    runLoop request_id s (ChanEvent.msg m :: rest) = runLoop request_id s rest := by
  refine ⟨processMsg_mismatch request_id s m h, ?_⟩
  simp [runLoop, processMsg_mismatch request_id s m h]

theorem C5_witness :
    runLoop "r" initialLoopState
        [ChanEvent.msg (mkAgentMsg "other" MELCHIOR_ID "POSITIVE" "completed")] =
      runLoop "r" initialLoopState [] :=
  (C5_stale_message_frame "r" initialLoopState
    (mkAgentMsg "other" MELCHIOR_ID "POSITIVE" "completed") [] (by decide)).2

/-- C7: as soon as the completed-agent count reaches 3 the receive loop
has exited (a state with 3 completed agents is only ever reached
together with the `break`), and once the loop has exited, events
delivered afterwards are never read and cannot change the loop's
result. -/
theorem C7_completion_exits (request_id : String) (msgs extra : List ChanEvent) :
    (3 ≤ (runLoop request_id initialLoopState msgs).1.completed.length →
      (runLoop request_id initialLoopState msgs).2 = true) ∧
    ((runLoop request_id initialLoopState msgs).2 = true →
      runLoop request_id initialLoopState (msgs ++ extra) =
        runLoop request_id initialLoopState msgs) := by
  constructor
  · intro hlen
    by_contra hb
    have hb' : (runLoop request_id initialLoopState msgs).2 = false := by
      simpa using hb
    obtain ⟨-, -, h3⟩ := runLoop_continue_frame request_id msgs initialLoopState hb'
    rcases h3 with h3 | h3
    · omega
    · have h0 : (runLoop request_id initialLoopState msgs).1.completed.length ≤ 0 := h3
      omega
  · exact runLoop_append_of_break request_id extra msgs initialLoopState

theorem C7_witness :
    runLoop "r" initialLoopState (eventsAllPositive "r" ++ [ChanEvent.endOfStream]) =
      runLoop "r" initialLoopState (eventsAllPositive "r") ∧
    (runLoop "r" initialLoopState (eventsAllPositive "r")).2 = true :=
  ⟨(C7_completion_exits "r" (eventsAllPositive "r") [ChanEvent.endOfStream]).2 (by decide),
   (C7_completion_exits "r" (eventsAllPositive "r") [ChanEvent.endOfStream]).1 (by decide)⟩

/-- C3 counterexample: two agents complete with positive decisions and
then the channel closes cleanly; the returned outcome has
`passed = false` (and an empty final result), not `passed = true` as
the claim's example demands. -/
theorem C3_counterexample :
    (code_review "r" "c"
        [ChanEvent.msg (mkAgentMsg "r" MELCHIOR_ID "POSITIVE: looks good" "completed"),
         ChanEvent.msg (mkAgentMsg "r" BALTHASAR_ID "POSITIVE: fine" "completed"),
         ChanEvent.endOfStream]).map ReviewOutcome.passed = some false ∧
    (code_review "r" "c"
        [ChanEvent.msg (mkAgentMsg "r" MELCHIOR_ID "POSITIVE: looks good" "completed"),
         ChanEvent.msg (mkAgentMsg "r" BALTHASAR_ID "POSITIVE: fine" "completed"),
         ChanEvent.endOfStream]).map (fun o => o.magi_state.melchior.decision) =
      some (some "POSITIVE") ∧
    (code_review "r" "c"
        [ChanEvent.msg (mkAgentMsg "r" MELCHIOR_ID "POSITIVE: looks good" "completed"),
         ChanEvent.msg (mkAgentMsg "r" BALTHASAR_ID "POSITIVE: fine" "completed"),
         ChanEvent.endOfStream]).map (fun o => o.magi_state.balthasar.decision) =
      some (some "POSITIVE") := by
  refine ⟨?_, ?_, ?_⟩ <;> decide

/-- C3 (amended): if the channel yields a clean close while the loop is
still collecting, the review terminates without an error and returns an
outcome in which never-completed agents keep their unset decision, but
`passed` and the final result are the untouched initial values `false`
and `""` — the reducer is not run over the partial decisions. -/
theorem C3_end_of_stream (request_id code : String) (msgs rest : List ChanEvent)
    (h : (runLoop request_id initialLoopState msgs).2 = false) :
    code_review request_id code (msgs ++ ChanEvent.endOfStream :: rest) =
      some (buildOutcome code (runLoop request_id initialLoopState msgs).1) ∧
    (buildOutcome code (runLoop request_id initialLoopState msgs).1).passed = false ∧
    (buildOutcome code (runLoop request_id initialLoopState msgs).1).result = "" := by
  have happ := runLoop_append_of_continue request_id
    (ChanEvent.endOfStream :: rest) msgs initialLoopState h
  have hframe := runLoop_continue_frame request_id msgs initialLoopState h
  refine ⟨?_, hframe.1, hframe.2.1⟩
  simp only [code_review, happ]
  rfl

theorem C3_witness :
    code_review "r" "c"
        ([ChanEvent.msg (mkAgentMsg "r" MELCHIOR_ID "POSITIVE" "completed")] ++
          ChanEvent.endOfStream :: []) =
      some (buildOutcome "c"
        (runLoop "r" initialLoopState
          [ChanEvent.msg (mkAgentMsg "r" MELCHIOR_ID "POSITIVE" "completed")]).1) :=
  (C3_end_of_stream "r" "c"
    [ChanEvent.msg (mkAgentMsg "r" MELCHIOR_ID "POSITIVE" "completed")] [] (by decide)).1

/-- C4 counterexample: a receive error as the very first channel event
is swallowed: the tool returns a fabricated outcome (with
`passed = false`) instead of propagating a failure. -/
theorem C4_counterexample :
    code_review "r" "c" [ChanEvent.recvError] = some (buildOutcome "c" initialLoopState) ∧
    (code_review "r" "c" [ChanEvent.recvError]).map ReviewOutcome.passed = some false := by
  exact ⟨rfl, rfl⟩

/-- C4 (amended): a transport failure while receiving does not
propagate: the generic exception handler breaks the loop and the tool
returns a fabricated outcome assembled from the partial state collected
so far. -/
theorem C4_receive_error_fabricates (request_id code : String) (msgs rest : List ChanEvent)
    (h : (runLoop request_id initialLoopState msgs).2 = false) :
    code_review request_id code (msgs ++ ChanEvent.recvError :: rest) =
      some (buildOutcome code (runLoop request_id initialLoopState msgs).1) := by
  have happ := runLoop_append_of_continue request_id
    (ChanEvent.recvError :: rest) msgs initialLoopState h
  simp only [code_review, happ]
  rfl

theorem C4_witness :
    code_review "r" "c"
        ([ChanEvent.msg (mkAgentMsg "r" MELCHIOR_ID "looks bad" "streaming")] ++
          ChanEvent.recvError :: []) =
      some (buildOutcome "c"
        (runLoop "r" initialLoopState
          [ChanEvent.msg (mkAgentMsg "r" MELCHIOR_ID "looks bad" "streaming")]).1) :=
  C4_receive_error_fabricates "r" "c"
    [ChanEvent.msg (mkAgentMsg "r" MELCHIOR_ID "looks bad" "streaming")] [] (by decide)

/-- C2: for any agent decisions with exactly `k` of the three equal to
positive, the reducer yields `passed = (k >= 2)` and a final decision
that is positive exactly when `passed` holds. -/
theorem C2_majority_reducer (ms : MagiState) (k : Nat) (hk : positive_count ms = k) :
    (reduce ms).2 = decide (2 ≤ k) ∧
    ((reduce ms).1 = "POSITIVE" ↔ (reduce ms).2 = true) := by
  subst hk
  refine ⟨rfl, ?_⟩
  simp only [reduce]
  by_cases h : 2 ≤ positive_count ms
  · simp [h]
  · simp [h]

theorem C2_witness :
    (reduce twoPositiveState).2 = decide (2 ≤ 2) ∧
    ((reduce twoPositiveState).1 = "POSITIVE" ↔ (reduce twoPositiveState).2 = true) :=
  C2_majority_reducer twoPositiveState 2 (by decide)

theorem lookup_update_self (ms : MagiState) (name : String) (ast a : AgentState)
    (h : ms.lookup name = some ast) :
    (ms.update name a).lookup name = some a := by
  simp only [MagiState.lookup, MagiState.update] at h ⊢
  split_ifs at h ⊢ <;> simp_all

/-- C1 counterexample: melchior streams the fragment `"POSITIVE"` and
then completes with the fragment `" ok"`.  The accumulated content
contains the marker `POSITIVE`, yet the computed decision is negative,
because the code scans only the terminal message's own fragment. -/
theorem C1_counterexample :
    containsSub "POSITIVE"
        ((runLoop "r" initialLoopState
          [ChanEvent.msg (mkAgentMsg "r" MELCHIOR_ID "POSITIVE" "streaming"),
           ChanEvent.msg (mkAgentMsg "r" MELCHIOR_ID " ok" "completed")]).1.magi.melchior.content) =
      true ∧
    (runLoop "r" initialLoopState
        [ChanEvent.msg (mkAgentMsg "r" MELCHIOR_ID "POSITIVE" "streaming"),
         ChanEvent.msg (mkAgentMsg "r" MELCHIOR_ID " ok" "completed")]).1.magi.melchior.decision =
      some "NEGATIVE" := by
  exact ⟨by decide, by decide⟩

/-- C1 (amended): when a matching message signals terminal status for a
recognized agent, that agent's decision is computed from the terminal
message's own content fragment alone: it is positive if and only if the
literal substring `POSITIVE` occurs in that fragment (earlier
accumulated fragments are not consulted). -/
theorem C1_decision_from_final_fragment (request_id : String) (s : LoopState)
    (m : InMessage) (ast : AgentState)
    (hreq : m.request_id = some request_id)
    (htype : m.type = some "agent_response")
    (hstatus : m.status = some "completed")
    (hlook : s.magi.lookup (agentNameOf m.agent_id) = some ast) :
    (processMsg request_id s m).map
        (fun r => (r.1.magi.lookup (agentNameOf m.agent_id)).map AgentState.decision) =
      some (some (some (decisionOfContent m.content))) ∧
    (decisionOfContent m.content = "POSITIVE" ↔ "POSITIVE".data <:+: m.content.data) := by
  constructor
  · simp only [processMsg, hreq, htype, hstatus, hlook, ne_eq, not_true_eq_false, ite_false,
      reduceIte]
    split
    · simp [lookup_update_self s.magi (agentNameOf m.agent_id) ast _ hlook]
    · simp [lookup_update_self s.magi (agentNameOf m.agent_id) ast _ hlook]
  · simp only [decisionOfContent, containsSub]
    by_cases h : "POSITIVE".data <:+: m.content.data
    · simp [h]
    · simp [h]

theorem C1_witness :
    (processMsg "r" initialLoopState (mkAgentMsg "r" MELCHIOR_ID "POSITIVE: ok" "completed")).map
        (fun r => (r.1.magi.lookup (agentNameOf (some MELCHIOR_ID))).map AgentState.decision) =
      some (some (some (decisionOfContent "POSITIVE: ok"))) ∧
    (decisionOfContent "POSITIVE: ok" = "POSITIVE" ↔
      "POSITIVE".data <:+: "POSITIVE: ok".data) :=
  C1_decision_from_final_fragment "r" initialLoopState
    (mkAgentMsg "r" MELCHIOR_ID "POSITIVE: ok" "completed") initialAgentState
    rfl rfl rfl (by decide)

theorem lookup_name_cases (ms : MagiState) (name : String) (ast : AgentState)
    (h : ms.lookup name = some ast) :
    name = "melchior" ∨ name = "balthasar" ∨ name = "casper" := by
  simp only [MagiState.lookup] at h
  split_ifs at h with h1 h2 h3
  · exact Or.inl h1
  · exact Or.inr (Or.inl h2)
  · exact Or.inr (Or.inr h3)

theorem mem_insertCompleted_self (l : List String) (name : String) :
    name ∈ insertCompleted l name := by
  simp only [insertCompleted]
  split_ifs with h
  · exact h
  · simp

theorem mem_insertCompleted_iff (l : List String) (name other : String) (h : other ≠ name) :
    (other ∈ insertCompleted l name) ↔ other ∈ l := by
  simp only [insertCompleted]
  split_ifs with hm
  · exact Iff.rfl
  · simp [h]

theorem processMsg_preserves_inv (request_id : String) (s : LoopState) (m : InMessage)
    (s' : LoopState) (b : Bool) (hinv : decisionMatchesCompleted s)
    (h : processMsg request_id s m = some (s', b)) :
    decisionMatchesCompleted s' := by
  obtain ⟨i1, i2, i3⟩ := hinv
  simp only [processMsg] at h
  split at h
  · obtain ⟨hs, -⟩ : s = s' ∧ False = b := by simpa using h
    subst hs; exact ⟨i1, i2, i3⟩
  · split at h
    · obtain ⟨hs, -⟩ : s = s' ∧ False = b := by simpa using h
      subst hs; exact ⟨i1, i2, i3⟩
    · split at h
      · exact absurd h (by simp)
      · rename_i ast hlook
        rcases lookup_name_cases s.magi (agentNameOf m.agent_id) ast hlook with hn | hn | hn
        · rw [hn] at h hlook
          replace hlook : s.magi.melchior = ast := by
            simpa [MagiState.lookup] using hlook
          subst hlook
          split at h
          · split at h
            all_goals
              simp only [Option.some.injEq, Prod.mk.injEq] at h
              obtain ⟨hs, -⟩ := h
              subst hs
              refine ⟨?_, ?_, ?_⟩ <;>
                simp [MagiState.update, mem_insertCompleted_self,
                  mem_insertCompleted_iff s.completed "melchior" "balthasar" (by decide),
                  mem_insertCompleted_iff s.completed "melchior" "casper" (by decide),
                  i1, i2, i3]
          · simp only [Option.some.injEq, Prod.mk.injEq] at h
            obtain ⟨hs, -⟩ := h
            subst hs
            exact ⟨by simpa [MagiState.update] using i1,
                   by simpa [MagiState.update] using i2,
                   by simpa [MagiState.update] using i3⟩
        · rw [hn] at h hlook
          replace hlook : s.magi.balthasar = ast := by
            simpa [MagiState.lookup] using hlook
          subst hlook
          split at h
          · split at h
            all_goals
              simp only [Option.some.injEq, Prod.mk.injEq] at h
              obtain ⟨hs, -⟩ := h
              subst hs
              refine ⟨?_, ?_, ?_⟩ <;>
                simp [MagiState.update, mem_insertCompleted_self,
                  mem_insertCompleted_iff s.completed "balthasar" "melchior" (by decide),
                  mem_insertCompleted_iff s.completed "balthasar" "casper" (by decide),
                  i1, i2, i3]
          · simp only [Option.some.injEq, Prod.mk.injEq] at h
            obtain ⟨hs, -⟩ := h
            subst hs
            exact ⟨by simpa [MagiState.update] using i1,
                   by simpa [MagiState.update] using i2,
                   by simpa [MagiState.update] using i3⟩
        · rw [hn] at h hlook
          replace hlook : s.magi.casper = ast := by
            simpa [MagiState.lookup] using hlook
          subst hlook
          split at h
          · split at h
            all_goals
              simp only [Option.some.injEq, Prod.mk.injEq] at h
              obtain ⟨hs, -⟩ := h
              subst hs
              refine ⟨?_, ?_, ?_⟩ <;>
                simp [MagiState.update, mem_insertCompleted_self,
                  mem_insertCompleted_iff s.completed "casper" "melchior" (by decide),
                  mem_insertCompleted_iff s.completed "casper" "balthasar" (by decide),
                  i1, i2, i3]
          · simp only [Option.some.injEq, Prod.mk.injEq] at h
            obtain ⟨hs, -⟩ := h
            subst hs
            exact ⟨by simpa [MagiState.update] using i1,
                   by simpa [MagiState.update] using i2,
                   by simpa [MagiState.update] using i3⟩

theorem runLoop_preserves_inv (request_id : String) (msgs : List ChanEvent) :
    ∀ s : LoopState, decisionMatchesCompleted s →
      decisionMatchesCompleted (runLoop request_id s msgs).1 := by
  induction msgs with
  | nil => intro s hs; exact hs
  | cons e rest ih =>
    intro s hs
    cases e with
    | endOfStream => exact hs
    | recvError => exact hs
    | msg m =>
      simp only [runLoop]
      cases hp : processMsg request_id s m with
      | none => exact hs
      | some r =>
        obtain ⟨s', b⟩ := r
        cases b with
        | true => exact processMsg_preserves_inv request_id s m s' true hs hp
        | false =>
          simp only
          exact ih s' (processMsg_preserves_inv request_id s m s' false hs hp)

/-- C6 (amended): throughout any run of the receive loop, each agent's
decision is set exactly when that agent is in the completed set.  (The
second half of the original claim — that a set decision never changes —
is refuted separately: a later terminal message for the same agent
overwrites it.) -/
theorem C6_decision_iff_completed (request_id : String) (events : List ChanEvent) :
    decisionMatchesCompleted (runLoop request_id initialLoopState events).1 :=
  runLoop_preserves_inv request_id events initialLoopState ⟨rfl, rfl, rfl⟩

/-- C6 counterexample: melchior completes once with a positive fragment
and then a second terminal message for melchior arrives before the
review is over; the already-set decision flips from positive to
negative, so a set decision can change. -/
theorem C6_counterexample :
    (runLoop "r" initialLoopState
        [ChanEvent.msg (mkAgentMsg "r" MELCHIOR_ID "POSITIVE" "completed")]).1.magi.melchior.decision =
      some "POSITIVE" ∧
    (runLoop "r" initialLoopState
        [ChanEvent.msg (mkAgentMsg "r" MELCHIOR_ID "POSITIVE" "completed"),
         ChanEvent.msg (mkAgentMsg "r" MELCHIOR_ID "on second thought, no" "completed")]).1.magi.melchior.decision =
      some "NEGATIVE" := by
  exact ⟨by decide, by decide⟩

theorem foldl_append_shift (l : List String) :
    ∀ a b : String, l.foldl (fun x y => x ++ y) (a ++ b) =
      a ++ l.foldl (fun x y => x ++ y) b := by
  induction l with
  | nil => intro a b; rfl
  | cons c cs ih =>
    intro a b
    simp only [List.foldl]
    rw [String.append_assoc, ih]

theorem joinAll_cons (c : String) (l : List String) :
    joinAll (c :: l) = c ++ joinAll l := by
  have h := foldl_append_shift l c ""
  rw [String.append_empty] at h
  simp only [joinAll, List.foldl, String.empty_append]
  exact h

theorem processMsg_streaming (request_id : String) (s : LoopState) (aid c : String)
    (ast : AgentState)
    (hlook : s.magi.lookup (agentNameOf (some aid)) = some ast) :
    processMsg request_id s (mkAgentMsg request_id aid c "streaming") =
      some ({ s with magi := (s.magi.update (agentNameOf (some aid))
        { ast with content := ast.content ++ c, messages := ast.messages ++ [c] }) }, false) := by
  simp [processMsg, mkAgentMsg, hlook]

/-- C9: content accumulation is append-only and order-preserving: for
any recognized agent and any list of streamed fragments for that agent,
the loop neither drops nor reorders anything — the agent's accumulated
content grows by exactly the concatenation of the fragments in arrival
order and the message log grows by the fragment list itself. -/
theorem C9_append_only (name aid : String) (hmem : (name, aid) ∈ AGENT_IDS)
    (request_id : String) (frags : List String) :
    ∀ (s : LoopState) (ast : AgentState), s.magi.lookup name = some ast →
      (runLoop request_id s (streamEvents request_id aid frags)).2 = false ∧
      (runLoop request_id s (streamEvents request_id aid frags)).1.magi.lookup name =
        some { ast with content := ast.content ++ joinAll frags,
                        messages := ast.messages ++ frags } := by
  have hname : agentNameOf (some aid) = name := by
    simp only [AGENT_IDS, List.mem_cons, List.not_mem_nil, or_false] at hmem
    rcases hmem with h | h | h <;>
      (injection h with h1 h2; subst h1; subst h2; decide)
  induction frags with
  | nil =>
    intro s ast hlook
    refine ⟨rfl, ?_⟩
    rw [show runLoop request_id s (streamEvents request_id aid []) = (s, false) from rfl]
    rw [hlook]
    simp [joinAll]
  | cons c cs ih =>
    intro s ast hlook
    have hlook' : s.magi.lookup (agentNameOf (some aid)) = some ast := by
      rw [hname]; exact hlook
    have hstep := processMsg_streaming request_id s aid c ast hlook'
    have hlk1 : ({ s with magi := (s.magi.update (agentNameOf (some aid))
        { ast with content := ast.content ++ c,
                   messages := ast.messages ++ [c] }) } : LoopState).magi.lookup name =
        some { ast with content := ast.content ++ c, messages := ast.messages ++ [c] } := by
      show (s.magi.update (agentNameOf (some aid))
        { ast with content := ast.content ++ c,
                   messages := ast.messages ++ [c] }).lookup name = _
      rw [hname]
      exact lookup_update_self s.magi name ast _ hlook
    obtain ⟨g1, g2⟩ := ih _ _ hlk1
    simp only [streamEvents, List.map_cons] at g1 g2 ⊢
    simp only [runLoop, hstep]
    refine ⟨g1, ?_⟩
    rw [g2]
    simp [joinAll_cons, String.append_assoc]

theorem C9_witness :
    (runLoop "r" initialLoopState (streamEvents "r" MELCHIOR_ID ["AB", "CD"])).2 = false ∧
    (runLoop "r" initialLoopState (streamEvents "r" MELCHIOR_ID ["AB", "CD"])).1.magi.lookup
        "melchior" =
      some { initialAgentState with
        content := initialAgentState.content ++ joinAll ["AB", "CD"],
        messages := initialAgentState.messages ++ ["AB", "CD"] } :=
  C9_append_only "melchior" MELCHIOR_ID (by decide) "r" ["AB", "CD"]
    initialLoopState initialAgentState rfl

theorem lookup_unknown (ms : MagiState) : ms.lookup "unknown" = none := rfl

/-- C10: a matching `agent_response` whose agent id is not one of the
three recognized identifiers is not silently discarded: the fallback
name is `"unknown"`, the state lookup under it fails (the `KeyError`),
the caught exception breaks the receive loop, and the tool returns an
outcome built from the state collected so far, with `passed = false`
and an empty final result — it does not keep waiting for the real
agents. -/
theorem C10_unknown_agent_aborts (request_id code : String) (msgs rest : List ChanEvent)
    (m : InMessage)
    (hreq : m.request_id = some request_id)
    (htype : m.type = some "agent_response")
    (hagent : agentNameOf m.agent_id = "unknown")
    (hcont : (runLoop request_id initialLoopState msgs).2 = false) :
    processMsg request_id (runLoop request_id initialLoopState msgs).1 m = none ∧
    code_review request_id code (msgs ++ ChanEvent.msg m :: rest) =
      some (buildOutcome code (runLoop request_id initialLoopState msgs).1) ∧
    (buildOutcome code (runLoop request_id initialLoopState msgs).1).passed = false ∧
    (buildOutcome code (runLoop request_id initialLoopState msgs).1).result = "" := by
  have hframe := runLoop_continue_frame request_id msgs initialLoopState hcont
  have hproc : processMsg request_id (runLoop request_id initialLoopState msgs).1 m = none := by
    simp [processMsg, hreq, htype, hagent, lookup_unknown]
  refine ⟨hproc, ?_, hframe.1, hframe.2.1⟩
  have happ := runLoop_append_of_continue request_id
    (ChanEvent.msg m :: rest) msgs initialLoopState hcont
  simp only [code_review, happ, runLoop, hproc, if_true]

theorem C10_witness :
    code_review "r" "c"
        ([] ++ ChanEvent.msg (mkAgentMsg "r" "nobody" "hello" "streaming") :: []) =
      some (buildOutcome "c" (runLoop "r" initialLoopState []).1) :=
  (C10_unknown_agent_aborts "r" "c" [] []
    (mkAgentMsg "r" "nobody" "hello" "streaming") rfl rfl (by decide) rfl).2.1

/-- C8: the credential generator computes the first 10 hex characters
of SHA-256 over the concatenation of application id, application
secret, and the decimal 60-second bucket `floor(now / 60)`; it is a
pure function of those inputs, and two times falling in the same
60-second bucket yield the same token. -/
theorem C8_token_bucket (appId appSecret : String) (t : Nat)
    (h : t / 60 = (t + 59) / 60) :
    generate_token appId appSecret t =
      (sha256Hex (appId ++ appSecret ++ toString (t / 60))).take 10 ∧
    generate_token appId appSecret (t + 59) = generate_token appId appSecret t ∧
    _generate_auth_token t = generate_token APP_ID APP_SECRET t := by
  refine ⟨rfl, ?_, rfl⟩
  simp only [generate_token, h]

theorem C8_witness :
    generate_token APP_ID APP_SECRET 120 =
      (sha256Hex (APP_ID ++ APP_SECRET ++ toString (120 / 60))).take 10 ∧
    generate_token APP_ID APP_SECRET (120 + 59) = generate_token APP_ID APP_SECRET 120 ∧
    _generate_auth_token 120 = generate_token APP_ID APP_SECRET 120 :=
  C8_token_bucket APP_ID APP_SECRET 120 (by decide)
